import Mathlib

/-!
Verification development for the radio-studio broadcast server.

The Go sources are shallowly embedded as pure Lean functions:

* playlist state machines (`internal/stream` playlist variants: the
  filesystem-backed `playlistState` and the HTTP-backed `backendPlaylist`),
* the studio feed / source-selector callback (`NewStudio`),
* the per-listener distributor step (`distribute`),
* the AutoDJ pacing computation (`streamFile`),
* the live-ingest handler and its Icecast Basic-auth check
  (`HandleLiveIngest`, `checkIcecastAuth`), including a concrete model of
  Go's `base64.StdEncoding.DecodeString`,
* geo enrichment (`internal/geo.Enrich`, `hashAndNull`) and client-IP
  extraction (`internal/netutil.ExtractClientIp`).

Go `int`/`int64` values are modelled as `Int` (no overflow is reachable at
the scales involved), `time.Duration` as `Int` nanoseconds, byte slices as
`List Nat`, and Go strings as Lean `String`/`List Char` (the strings
compared byte-wise in the source are ASCII).  Standard-library primitives
that are external to this repository (SHA-256, GeoIP lookup, `net.ParseIP`,
`net.SplitHostPort`) are taken as function parameters of the theorems that
mention them.  Effects are made explicit: handlers become functions from a
request/state/input-trace to a result record.
-/

namespace StudioSpec

/-- ASCII lower-casing of a single character, the model of Go
`strings.ToLower` / the per-character folding done by `strings.EqualFold`
on the ASCII-only strings used by this program. -/
def toLowerChar (c : Char) : Char :=
  if 'A' ≤ c ∧ c ≤ 'Z' then Char.ofNat (c.toNat + 32) else c

/-! ## Playlist model

`Track`, `playlistState` (filesystem variant) and `backendPlaylist`
(HTTP variant) from the `stream` package.  The cursor `idx` is a Go `int`,
modelled as `Int` because `-1` is a meaningful sentinel. -/

/-- Model of `stream.Track`.  `DurationSec float64` carries no logic in any
claim and is modelled as an integer number of seconds. -/
structure Track where
  id : String := ""
  file : String := ""
  path : String := ""
  title : String := ""
  artist : String := ""
  album : String := ""
  durationSec : Int := 0
  deriving Repr, DecidableEq

/-- Model of `stream.playlistState` (filesystem variant).  The `sync.RWMutex`
is left implicit (all operations are modelled as atomic state transitions);
`lastModTime` is a timestamp in abstract units. -/
structure playlistState where
  dir : String
  tracks : List Track
  idx : Int
  lastModTime : Nat
  deriving Repr, DecidableEq

/-- Model of `newPlaylistState`. -/
def newPlaylistState (dir : String) : playlistState :=
  { dir := dir, tracks := [], idx := -1, lastModTime := 0 }

/-- A directory entry as returned by `os.ReadDir`: a name and whether the
entry is a directory. -/
structure DirEntry where
  name : String
  isDir : Bool
  deriving Repr, DecidableEq

/-- Model of `strings.HasSuffix(strings.ToLower(name), ".mp3")`. -/
def hasMp3Suffix (name : String) : Bool :=
  (".mp3".toList).isSuffixOf (name.toList.map toLowerChar)

/-- Model of `filepath.Join` for the simple two-component joins the program
performs. -/
def pathJoin (dir name : String) : String := dir ++ "/" ++ name

/-- Insertion of a track into a list sorted by the `File` field, the
comparator of `sort.Slice(list, func(i, j int) bool { return list[i].File <
list[j].File })`. -/
def insertTrack (t : Track) : List Track → List Track
  | [] => [t]
  | u :: rest => if t.file < u.file then t :: u :: rest else u :: insertTrack t rest

/-- Sorting by the `File` field (model of the `sort.Slice` call in
`reload`). -/
def sortTracks : List Track → List Track
  | [] => []
  | t :: rest => insertTrack t (sortTracks rest)

/-- One iteration of the `for _, e := range entries` loop of
`playlistState.reload`.  Note that in the source the `sort.Slice` call and
the whole snapshot-replace block (`p.tracks = list`, the cursor clamping,
`p.lastModTime = mod`) sit INSIDE the per-entry loop, guarded only by the
`e.IsDir()` `continue`; the fold state carries the local `list` variable
alongside the shared `p`. -/
def reloadStep (mod : Nat) (st : playlistState × List Track) (e : DirEntry) :
    playlistState × List Track :=
  if e.isDir then st
  else
    let p := st.1
    let list :=
      if hasMp3Suffix e.name then
        st.2 ++ [{ file := e.name, path := pathJoin p.dir e.name }]
      else st.2
    let list := sortTracks list
    let tracksCount : Int := list.length
    let idx :=
      if tracksCount = 0 then -1
      else if p.idx ≥ tracksCount then 0
      else p.idx
    ({ p with tracks := list, idx := idx, lastModTime := mod }, list)

/-- Model of `playlistState.reload`.  `entries = none` models the
`os.ReadDir` error branch (early return leaving the state untouched). -/
def reload (p : playlistState) (entries : Option (List DirEntry)) (mod : Nat) :
    playlistState :=
  match entries with
  | none => p
  | some es => (es.foldl (reloadStep mod) (p, [])).1

/-- Model of `playlistState.ensure`.  `statMod = none` models the `os.Stat`
error branch; otherwise `statMod` is the directory's modification time and
`mod.After(lastModTime)` is modelled by `>`. -/
def ensure (p : playlistState) (statMod : Option Nat)
    (entries : Option (List DirEntry)) : playlistState :=
  match statMod with
  | none => p
  | some mod =>
    if p.tracks.length = 0 ∨ mod > p.lastModTime then reload p entries mod else p

/-- Model of `playlistState.forceReload`. -/
def forceReload (p : playlistState) (statMod : Option Nat)
    (entries : Option (List DirEntry)) : playlistState :=
  match statMod with
  | none => p
  | some mod => reload p entries mod

/-- Model of `playlistState.current`: `(Track, bool)` becomes
`Option Track`.  The method only reads under `RLock`, so it is a pure
query. -/
def current (p : playlistState) : Option Track :=
  if p.idx < 0 ∨ p.idx ≥ (p.tracks.length : Int) then none
  else p.tracks.get? p.idx.toNat

/-- Model of `playlistState.nextTrack`: a pure query (read lock only, no
mutation, so the cursor is unchanged by construction).  On an unstarted
cursor (`idx < 0`) it returns element 0; otherwise `(idx+1) % len`.
For `idx ≥ 0` the Lean `%` (Euclidean) agrees with Go's `%`. -/
def nextTrack (p : playlistState) : Option Track :=
  if p.tracks.length = 0 then none
  else if p.idx < 0 then p.tracks.get? 0
  else p.tracks.get? (((p.idx + 1) % (p.tracks.length : Int)).toNat)

/-- Model of `playlistState.advance`: mutates the cursor under the write
lock and returns the new current track. -/
def advance (p : playlistState) : playlistState × Option Track :=
  if p.tracks.length = 0 then ({ p with idx := -1 }, none)
  else
    let i : Int := if p.idx < 0 then 0 else (p.idx + 1) % (p.tracks.length : Int)
    ({ p with idx := i }, p.tracks.get? i.toNat)

/-! ### HTTP-backed playlist (`backendPlaylist`) -/

/-- Model of `backendTrack`, the JSON shape returned by the backend. -/
structure backendTrack where
  id : String := ""
  file : String := ""
  title : String := ""
  artist : String := ""
  album : String := ""
  durationSeconds : Int := 0
  deriving Repr, DecidableEq

/-- Model of `stream.backendPlaylist` (endpoint/apiKey/client are connection
details with no bearing on the state machine and are omitted; `ttl` and
`lastFetch` are abstract time units). -/
structure backendPlaylist where
  studioID : String
  dir : String
  tracks : List Track
  idx : Int
  lastFetch : Nat
  ttl : Nat
  deriving Repr, DecidableEq

/-- Model of `newBackendPlaylist`. -/
def newBackendPlaylist (dir studioID : String) : backendPlaylist :=
  { studioID := studioID, dir := dir, tracks := [], idx := -1, lastFetch := 0, ttl := 5 }

/-- Model of `backendPlaylist.fetch`.  `resp = none` collapses the three
error returns (request error, non-200 status, JSON decode error), each of
which leaves the snapshot intact. -/
def fetch (b : backendPlaylist) (resp : Option (List backendTrack)) (now : Nat) :
    backendPlaylist :=
  match resp with
  | none => b
  | some bTracks =>
    let out := bTracks.map (fun t =>
      ({ id := t.id, file := pathJoin b.dir t.file, title := t.title,
         artist := t.artist, album := t.album,
         durationSec := t.durationSeconds } : Track))
    let b := { b with tracks := out }
    let b :=
      if (b.tracks.length : Int) = 0 then { b with idx := -1 }
      else if b.idx ≥ (b.tracks.length : Int) then { b with idx := 0 }
      else b
    { b with lastFetch := now }

/-- Model of `backendPlaylist.ensure`: refetches when the snapshot is empty
or the TTL has elapsed, else leaves the state untouched. -/
def backendEnsure (b : backendPlaylist) (resp : Option (List backendTrack))
    (now : Nat) : backendPlaylist :=
  if b.tracks.length = 0 ∨ now - b.lastFetch > b.ttl then fetch b resp now else b

/-- Model of `backendPlaylist.nextTrack` (read lock only — pure query). -/
def backendNextTrack (b : backendPlaylist) : Option Track :=
  if b.tracks.length = 0 then none
  else if b.idx < 0 then b.tracks.get? 0
  else b.tracks.get? (((b.idx + 1) % (b.tracks.length : Int)).toNat)

/-- Model of `backendPlaylist.advance`. -/
def backendAdvance (b : backendPlaylist) : backendPlaylist × Option Track :=
  if b.tracks.length = 0 then ({ b with idx := -1 }, none)
  else
    let i : Int := if b.idx < 0 then 0 else (b.idx + 1) % (b.tracks.length : Int)
    ({ b with idx := i }, b.tracks.get? i.toNat)

/-- Model of `backendPlaylist.forceReload`: zeroes the fetch timestamp only
(`b.lastFetch = time.Time{}`); tracks and cursor are untouched. -/
def backendForceReload (b : backendPlaylist) : backendPlaylist :=
  { b with lastFetch := 0 }

/-- The cursor invariant the spec asserts for playlists, in the form the
code actually maintains: the cursor indexes a valid track or is `-1`, and
an empty snapshot forces `-1`. -/
def cursorInv (tracks : List Track) (idx : Int) : Prop :=
  (idx = -1 ∨ (0 ≤ idx ∧ idx < (tracks.length : Int))) ∧
    ((tracks.length : Int) = 0 → idx = -1)

/-! ## Studio feed and source selector

Model of the per-studio Feed Queue (`feed chan []byte`) and of the
producer callback installed at studio construction (`NewStudio`).  The
queue is a bounded FIFO; a non-blocking send succeeds exactly when the
buffer has room.  Chunk payloads are byte lists. -/

/-- The selector-relevant studio state: the `liveActive` atomic flag and the
feed queue contents. -/
structure StudioFeed where
  liveActive : Bool
  feed : List (List Nat)
  deriving Repr, DecidableEq

/-- Feed-queue capacity in the main variant: `make(chan []byte, 4096)`. -/
def feedCapacity : Nat := 4096

/-- Feed-queue capacity in the `studio.go` variant: `make(chan []byte, 8192)`. -/
def feedCapacityAlt : Nat := 8192

/-- Model of `Studio.push` / `Studio.pushToFeed`: non-blocking feed send —
if the queue is full the chunk is dropped.  The capacity is a parameter so
that both source variants are covered. -/
def push (cap : Nat) (s : StudioFeed) (data : List Nat) : StudioFeed :=
  if s.feed.length < cap then { s with feed := s.feed ++ [data] } else s

/-- Model of the AutoDJ-bound producer callback installed in `NewStudio`:
`if s.liveActive.Load() { return }; s.push(b)` (equivalently, the
`studio.go` variant `if !s.liveActive.Load() { s.pushToFeed(data) }`). -/
def autoDJCallback (cap : Nat) (s : StudioFeed) (b : List Nat) : StudioFeed :=
  if s.liveActive then s else push cap s b

/-! ## Distributor

Model of the body of `Studio.distribute` (part_004) for one listener and
one chunk.  Whether the non-blocking send to the listener channel hits the
`default` branch (channel full) is an environment input, because the
listener goroutine drains the channel concurrently.  Timestamps are `Int`
nanoseconds; `5*time.Second = 5000000000`. -/

/-- The distributor-visible listener state: `streamListener.droppedInARow`
together with the `listeners.Listener` counters the loop touches
(`ByteSent`, `LastHeartbeat`; the heartbeat pointer may be nil). -/
structure streamListener where
  droppedInARow : Nat
  byteSent : Int
  lastHeartbeat : Option Int
  deriving Repr, DecidableEq

/-- One iteration of the inner `for ls := range s.streamListeners` loop of
`distribute`, for one chunk of length `chunkLen`: the non-blocking send
(reset or increment `droppedInARow`, evict when it exceeds 50), then —
unconditionally, after the `select` — `ls.l.ByteSent.Add(int64(len(data)))`
and the stale-heartbeat refresh.  Returns the updated listener state and
whether the listener was evicted (channel closed and removed) in this
iteration. -/
def heartbeatUpdate (now : Int) (ls : streamListener) : streamListener :=
  match ls.lastHeartbeat with
  | some hb =>
    if now - hb > 5000000000 then { ls with lastHeartbeat := some now } else ls
  | none => ls

def distributeStep (now : Int) (chunkLen : Nat) (chanFull : Bool)
    (ls : streamListener) : streamListener × Bool :=
  let sent :=
    if chanFull then
      ({ ls with droppedInARow := ls.droppedInARow + 1 },
        decide (ls.droppedInARow + 1 > 50))
    else
      ({ ls with droppedInARow := 0 }, false)
  let ls2 := { sent.1 with byteSent := sent.1.byteSent + (chunkLen : Int) }
  (heartbeatUpdate now ls2, sent.2)

/-- The fate of one listener across a sequence of chunks: each element of
`inputs` is (chunk length, whether the listener channel was full at that
instant).  Once the distributor evicts the listener (closes its channel and
removes it from the set) no further chunks reach it. -/
def runListener (now : Int) : List (Nat × Bool) → streamListener →
    streamListener × Bool
  | [], ls => (ls, false)
  | (len, full) :: rest, ls =>
    let r := distributeStep now len full ls
    if r.2 then (r.1, true) else runListener now rest r.1

/-- Counter automaton abstracting the eviction logic: `d` is the current
`droppedInARow`; a full-channel send increments it and evicts when the new
value exceeds 50; a successful send resets it. -/
def evictedFrom (d : Nat) : List Bool → Bool
  | [] => false
  | full :: rest =>
    if full then (if d + 1 > 50 then true else evictedFrom (d + 1) rest)
    else evictedFrom 0 rest

/-- A concrete one-track playlist used to exercise the model. -/
def samplePlaylist (idx : Int) : playlistState :=
  { dir := "d", tracks := [{ file := "a.mp3" }], idx := idx, lastModTime := 0 }

/-! ## AutoDJ pacing (`streamFile`)

Durations are `Int` nanoseconds (`time.Duration` is an `int64` nanosecond
count; `time.Second = 1000000000`, `700*time.Microsecond = 700000`,
`700*time.Millisecond = 700000000`). -/

/-- Model of `expected := time.Duration(float64(sent) / float64(bytesPerSec)
* float64(time.Second))`: the expected elapsed time after `sent` cumulative
bytes at `bytesPerSec`.  Go routes the quotient through `float64`; the
integer expression agrees with it whenever the quotient is exactly
representable, which holds for every input used below. -/
def expectedNs (sent bytesPerSec : Int) : Int := sent * 1000000000 / bytesPerSec

/-- Pacing branch of `streamFile` in `internal/stream/autodj.go` (both
segments): `elapsed := time.Since(start); if expected > elapsed {
time.Sleep(expected - elapsed) }`.  Returns the nanoseconds slept after the
current chunk. -/
def pacingSleepAutodj (expected elapsed : Int) : Int :=
  if expected > elapsed then expected - elapsed else 0

/-- Pacing branch of `streamFile` in part_002: `if sleep := expected -
time.Since(start); sleep > 0 && sleep < 700*time.Microsecond {
time.Sleep(sleep) }` — note the threshold is 700 microseconds and a
difference at or above it produces no sleep at all. -/
def pacingSleepPart002 (expected elapsed : Int) : Int :=
  let sleep := expected - elapsed
  if sleep > 0 ∧ sleep < 700000 then sleep else 0

/-- The whole per-chunk pacing of the `autodj.go` variant, from cumulative
bytes and wall-clock elapsed time. -/
def chunkPacingAutodj (sent bytesPerSec elapsed : Int) : Int :=
  pacingSleepAutodj (expectedNs sent bytesPerSec) elapsed

/-- The whole per-chunk pacing of the part_002 variant. -/
def chunkPacingPart002 (sent bytesPerSec elapsed : Int) : Int :=
  pacingSleepPart002 (expectedNs sent bytesPerSec) elapsed

/-! ## Listener, client-IP extraction, and geo enrichment

Model of `listeners.Listener`, `netutil.ExtractClientIp` /
`ClassifyUserAgent`, and `geo.Resolver`.  `net.IP` is modelled by the
textual form of the address (`none` for a nil IP); timestamps are `Int`;
`Lat`/`Lon` (`float64`) are modelled as `Int` values carried through
unchanged (the `round2` rounding is outside every claim).  SHA-256 and the
GeoIP database are standard-library/external collaborators and enter as
function parameters. -/

/-- Model of `listeners.Listener`.  Zero values mirror Go: empty strings,
nil IP, empty hash, `Enriched` false. -/
structure Listener where
  id : String := ""
  studioId : String := ""
  connectedAt : Int := 0
  disconnectedAt : Option Int := none
  remoteIP : Option String := none
  ipHash : List Char := []
  country : String := ""
  region : String := ""
  city : String := ""
  lat : Int := 0
  lon : Int := 0
  userAgent : String := ""
  clientType : String := ""
  byteSent : Int := 0
  lastHeartbeat : Option Int := none
  enriched : Bool := false
  deriving Repr, DecidableEq

/-- UTF-8 bytes of a Go string, for the ASCII strings this program hashes
(the salt and textual IP addresses). -/
def strBytes (s : String) : List Nat := s.toList.map Char.toNat

/-- A lowercase hex digit (0-9, a-f), as produced by `encoding/hex`. -/
def hexDigit (n : Nat) : Char :=
  if n < 10 then Char.ofNat (48 + n) else Char.ofNat (87 + n)

/-- Model of `hex.EncodeToString`: two lowercase hex digits per byte. -/
def hexEncode : List Nat → List Char
  | [] => []
  | b :: rest => hexDigit (b / 16) :: hexDigit (b % 16) :: hexEncode rest

/-- Model of `geo.Resolver`: `ok` is true when geo is enabled and the
database opened; `salt` is the configured hash salt as bytes.  The database
handle itself is modelled by the lookup function passed to `Enrich`. -/
structure Resolver where
  ok : Bool
  salt : List Nat

/-- The fields `Enrich` reads from the `db.City` record: ISO country code,
the English names of the subdivisions, the English city name, and the
(rounded) coordinates. -/
structure CityRecord where
  isoCode : String := ""
  subdivisionEn : List String := []
  cityNameEn : String := ""
  lat : Int := 0
  lon : Int := 0

/-- Model of `Resolver.hashAndNull`: when the raw IP is non-nil, set
`IPHash = hex(sha256(salt || ip.String()))` and null the raw IP; a nil IP
is an immediate return. -/
def hashAndNull (sha256 : List Nat → List Nat) (r : Resolver) (l : Listener) :
    Listener :=
  match l.remoteIP with
  | none => l
  | some ip =>
    { l with ipHash := hexEncode (sha256 (r.salt ++ strBytes ip)),
             remoteIP := none }

/-- Model of `Resolver.hashOnly`, which just delegates to `hashAndNull`. -/
def hashOnly (sha256 : List Nat → List Nat) (r : Resolver) (l : Listener) :
    Listener :=
  hashAndNull sha256 r l

/-- The geo-field assignments on the success path of `Enrich`: country from
the non-empty ISO code, region from the first subdivision's English name,
city from the English city name, and the rounded coordinates. -/
def applyCity (city : CityRecord) (l : Listener) : Listener :=
  let l := if city.isoCode ≠ "" then { l with country := city.isoCode } else l
  let l := if city.subdivisionEn ≠ [] then
      { l with region := city.subdivisionEn.headD "" } else l
  let l := if city.cityNameEn ≠ "" then { l with city := city.cityNameEn } else l
  { l with lat := city.lat, lon := city.lon }

/-- Model of `Resolver.Enrich`.  `cityLookup ip = none` models `db.City`
returning an error.  Only the full success path stores `Enriched = true`;
the early paths hash-and-null without setting the flag. -/
def Enrich (sha256 : List Nat → List Nat)
    (cityLookup : String → Option CityRecord) (r : Resolver) (l : Listener) :
    Listener :=
  if !r.ok || l.remoteIP.isNone then hashOnly sha256 r l
  else
    match l.remoteIP with
    | none => hashOnly sha256 r l
    | some ip =>
      match cityLookup ip with
      | none => hashOnly sha256 r l
      | some city => { hashAndNull sha256 r (applyCity city l) with enriched := true }

/-- The X-Forwarded-For scan of `ExtractClientIp`: first part whose trimmed
text parses as an IP. -/
def firstParsedIp (parseIP : String → Option String) : List String → Option String
  | [] => none
  | p :: rest =>
    match parseIP p.trim with
    | some ip => some ip
    | none => firstParsedIp parseIP rest

/-- Model of `netutil.ExtractClientIp`: leftmost parseable IP of the
comma-split `X-Forwarded-For` header (when non-empty), else the parsed host
part of the peer address.  `parseIP` models `net.ParseIP` (none on failure);
`splitHostPort` models the host component of `net.SplitHostPort` (none when
it errors). -/
def ExtractClientIp (parseIP : String → Option String)
    (splitHostPort : String → Option String) (xff remoteAddr : String) :
    Option String :=
  let fromXff :=
    if xff ≠ "" then firstParsedIp parseIP (xff.splitOn ",") else none
  match fromXff with
  | some ip => some ip
  | none =>
    match splitHostPort remoteAddr with
    | some host => parseIP host
    | none => none

/-- Model of `strings.Contains`: does `sub` occur as a contiguous substring
of `s`? -/
def containsSub (sub : List Char) : List Char → Bool
  | [] => sub.isEmpty
  | c :: rest => sub.isPrefixOf (c :: rest) || containsSub sub rest

/-- Model of `netutil.ClassifyUserAgent`. -/
def ClassifyUserAgent (ua : String) : String :=
  let l := ua.toList.map toLowerChar
  if containsSub ("vlc".toList) l then "vlc"
  else if containsSub ("winamp".toList) l then "winamp"
  else if containsSub ("android".toList) l then "android_browser"
  else if containsSub ("iphone".toList) l || containsSub ("ipad".toList) l then
    "ios_browser"
  else if containsSub ("mozilla".toList) l then "browser"
  else "other"

/-- The Listener allocated at the top of `HandleListen` (part_004): fresh
UUID, studio id, extracted client IP, user agent and its classification;
every other field keeps its Go zero value, and `LastHeartbeat` is stored
immediately after. -/
def mkListener (id studioId : String) (ip : Option String) (userAgent : String)
    (now : Int) : Listener :=
  { id := id, studioId := studioId, remoteIP := ip, userAgent := userAgent,
    clientType := ClassifyUserAgent userAgent, connectedAt := now,
    lastHeartbeat := some now }

/-- Model of `analytics.ListenerSession`, the DTO shipped to the backend. -/
structure ListenerSession where
  id : String := ""
  startedAt : Int := 0
  endedAt : Option Int := none
  ipHash : List Char := []
  userAgent : String := ""
  clientType : String := ""
  country : String := ""
  region : String := ""
  city : String := ""
  lat : Int := 0
  lon : Int := 0
  totalBytes : Int := 0
  deriving Repr, DecidableEq

/-- The per-listener DTO construction inside `collectSessions` (part_005):
in particular `IPHash: l.IPHash`. -/
def sessionOf (l : Listener) : ListenerSession :=
  { id := l.id, startedAt := l.connectedAt, endedAt := l.disconnectedAt,
    ipHash := l.ipHash, userAgent := l.userAgent, clientType := l.clientType,
    country := l.country, region := l.region, city := l.city,
    lat := l.lat, lon := l.lon, totalBytes := l.byteSent }

/-! ## Live ingest: Icecast Basic auth and the live handler

Model of `checkIcecastAuth` and `HandleLiveIngest` (part_007, second
variant; the first variant differs only in the expected username — `source`
versus `ubugorozi` — so the username and the package-level
`liveSourcePassword` enter as parameters).  Header values are `List Char`
(Go strings are byte strings; everything compared here is ASCII).
`base64.StdEncoding.DecodeString` is modelled concretely. -/

/-- Model of `strings.SplitN(s, sep, 2)` for a one-character separator:
`some (before, after)` splits at the first occurrence of `sep`; `none`
means the separator does not occur (Go returns a single part, which both
call sites reject as a length-2 check failure). -/
def splitN2 : List Char → Char → Option (List Char × List Char)
  | [], _ => none
  | c :: rest, sep =>
    if c = sep then some ([], rest)
    else
      match splitN2 rest sep with
      | none => none
      | some (a, b) => some (c :: a, b)

/-- Model of `strings.EqualFold` on the ASCII strings compared here. -/
def equalFold (a b : List Char) : Bool :=
  a.map toLowerChar == b.map toLowerChar

/-- The 6-bit value of a standard-base64 alphabet character. -/
def b64Val (c : Char) : Option Nat :=
  if 'A' ≤ c ∧ c ≤ 'Z' then some (c.toNat - 65)
  else if 'a' ≤ c ∧ c ≤ 'z' then some (c.toNat - 97 + 26)
  else if '0' ≤ c ∧ c ≤ '9' then some (c.toNat - 48 + 52)
  else if c = '+' then some 62
  else if c = '/' then some 63
  else none

/-- Quad-by-quad decoding of padded standard base64: a final quad may be
`xx==` (one byte) or `xxx=` (two bytes); padding anywhere else, a
non-alphabet character, or a length that is not a multiple of four is an
error, as in Go's `StdEncoding`. -/
def b64DecodeQuads : List Char → Option (List Nat)
  | [] => some []
  | a :: b :: c :: d :: rest =>
    match b64Val a, b64Val b with
    | some va, some vb =>
      if c = '=' then
        if d = '=' && rest.isEmpty then some [va * 4 + vb / 16] else none
      else
        match b64Val c with
        | some vc =>
          if d = '=' then
            if rest.isEmpty then some [va * 4 + vb / 16, vb % 16 * 16 + vc / 4]
            else none
          else
            match b64Val d with
            | some vd =>
              match b64DecodeQuads rest with
              | some tail =>
                some ((va * 4 + vb / 16) :: (vb % 16 * 16 + vc / 4) ::
                  (vc % 4 * 64 + vd) :: tail)
              | none => none
            | none => none
        | none => none
    | _, _ => none
  | _ => none

/-- Model of `base64.StdEncoding.DecodeString`: carriage returns and
newlines are ignored, the rest must be padded quads; yields bytes. -/
def b64DecodeBytes (s : List Char) : Option (List Nat) :=
  b64DecodeQuads (s.filter (fun c => !(c = '\r' || c = '\n')))

/-- The Go `string(decoded)` view of decoded bytes: byte values below 256
map one-to-one onto code points. -/
def bytesToChars (bs : List Nat) : List Char := bs.map Char.ofNat

/-- `DecodeString` followed by the `string` conversion of its result. -/
def b64Decode (s : List Char) : Option (List Char) :=
  match b64DecodeBytes s with
  | some bs => some (bytesToChars bs)
  | none => none

/-- The credential check at the tail of `checkIcecastAuth`:
`creds := strings.SplitN(string(decoded), ":", 2)` must give two parts,
the user must equal the expected username and the password the configured
source password (the two early error returns become `false`). -/
def checkCreds (liveSourcePassword expectedUser : List Char)
    (decoded : List Char) : Bool :=
  match splitN2 decoded ':' with
  | none => false
  | some (user, pass) =>
    if user ≠ expectedUser then false
    else if pass ≠ liveSourcePassword then false
    else true

/-- The scheme and payload checks of `checkIcecastAuth`: the scheme must
case-fold to `Basic` and the payload must base64-decode, after which the
credentials are checked. -/
def checkSchemePayload (liveSourcePassword expectedUser : List Char)
    (scheme payload : List Char) : Bool :=
  if !equalFold scheme ("Basic".toList) then false
  else
    match b64Decode payload with
    | none => false
    | some decoded => checkCreds liveSourcePassword expectedUser decoded

/-- Model of `checkIcecastAuth`, transcribed as the sequence of checks the
Go function performs: non-empty header, a two-part `<scheme> <payload>`
split, then `checkSchemePayload`. -/
def checkIcecastAuth (liveSourcePassword expectedUser : List Char)
    (auth : List Char) : Bool :=
  if auth.isEmpty then false
  else
    match splitN2 auth ' ' with
    | none => false
    | some (scheme, payload) =>
      checkSchemePayload liveSourcePassword expectedUser scheme payload

/-- The request data `HandleLiveIngest` inspects.  `expect100` records an
`Expect: 100-continue` header (its interim response changes no modelled
observable); `canHijack` is whether the response writer supports
`http.Hijacker`. -/
structure LiveRequest where
  method : String := ""
  authHeader : List Char := []
  contentLength : Int := 0
  expect100 : Bool := false
  canHijack : Bool := true
  iceName : String := ""
  iceGenre : String := ""
  iceDescription : String := ""
  iceURL : String := ""
  iceBitrate : String := ""
  icePublic : String := ""
  headers : List (String × String) := []
  deriving Repr, DecidableEq

/-- Model of `stream.LiveMeta`. -/
structure LiveMeta where
  name : String := ""
  genre : String := ""
  description : String := ""
  url : String := ""
  bitrate : String := ""
  publicFlag : String := ""
  rawHeaders : List (String × String) := []
  updatedAt : Int := 0
  deriving Repr, DecidableEq

/-- Model of `extractLiveMeta`: the named `Ice-*` headers plus every header
whose lower-cased name has the `ice-` prefix, stored verbatim. -/
def extractLiveMeta (now : Int) (req : LiveRequest) : LiveMeta :=
  { name := req.iceName, genre := req.iceGenre,
    description := req.iceDescription, url := req.iceURL,
    bitrate := req.iceBitrate, publicFlag := req.icePublic,
    rawHeaders := req.headers.filter (fun kv =>
      ("ice-".toList).isPrefixOf (kv.1.toList.map toLowerChar)),
    updatedAt := now }

/-- The studio state `HandleLiveIngest` touches: the `liveActive` flag,
whether a live reader is installed (`liveIngest != nil`), the live
metadata, and the feed queue. -/
structure HandlerState where
  liveActive : Bool := false
  liveIngest : Bool := false
  liveMeta : Option LiveMeta := none
  feed : List (List Nat) := []
  deriving Repr, DecidableEq

/-- The observable outcome of one `HandleLiveIngest` call. -/
structure LiveResult where
  status : Nat
  wwwAuthenticate : Option String
  finalState : HandlerState
  pushed : List (List Nat)
  deriving Repr, DecidableEq

/-- The `WWW-Authenticate` challenge value set on auth failure. -/
def basicRealmSource : String := "Basic realm=\"source\""

/-- The methods the live handler accepts. -/
def acceptedLiveMethod (m : String) : Bool :=
  m == "PUT" || m == "POST" || m == "SOURCE"

/-- Model of `Studio.push` on the handler state's feed (non-blocking bounded
send, capacity 4096). -/
def pushFeed (feed : List (List Nat)) (data : List Nat) : List (List Nat) :=
  if feed.length < feedCapacity then feed ++ [data] else feed

/-- Model of `HandleLiveIngest` (part_007, second variant; the first orders
its checks identically).  The connection body is modelled by `reads`, the
byte chunks of the successful (`n > 0`) reads in order; each is copied
before publishing (the identity on values).  The grace-window handling of
empty early-EOF reads affects only timing.  On the success path the final
state reflects teardown: `liveActive` cleared, the reader closed and
nilled, the metadata cleared, and the published chunks folded into the
feed.  A hijack-required request on a non-hijackable writer answers 500
after the metadata was already stored, with the live source untouched. -/
def HandleLiveIngest (liveSourcePassword expectedUser : List Char) (now : Int)
    (req : LiveRequest) (st : HandlerState) (reads : List (List Nat)) :
    LiveResult :=
  if !acceptedLiveMethod req.method then
    { status := 405, wwwAuthenticate := none, finalState := st, pushed := [] }
  else if !checkIcecastAuth liveSourcePassword expectedUser req.authHeader then
    { status := 401, wwwAuthenticate := some basicRealmSource,
      finalState := st, pushed := [] }
  else if st.liveActive then
    { status := 409, wwwAuthenticate := none, finalState := st, pushed := [] }
  else
    let st1 := { st with liveMeta := some (extractLiveMeta now req) }
    let hijack := req.method == "SOURCE" ||
      ((req.method == "PUT" || req.method == "POST") &&
        decide (req.contentLength ≤ 0))
    if hijack && !req.canHijack then
      { status := 500, wwwAuthenticate := none, finalState := st1, pushed := [] }
    else
      let nonEmpty := reads.filter (fun c => !c.isEmpty)
      { status := 200, wwwAuthenticate := none,
        finalState := { liveActive := false, liveIngest := false,
                        liveMeta := none,
                        feed := nonEmpty.foldl pushFeed st1.feed },
        pushed := nonEmpty }

/-- A concrete valid source request: method `SOURCE`,
`Authorization: Basic base64("source:Test123")`. -/
def sampleLiveRequest : LiveRequest :=
  { method := "SOURCE", authHeader := "Basic c291cmNlOlRlc3QxMjM=".toList }

/-- A handler state with a live source already active. -/
def sampleLiveState : HandlerState := { liveActive := true, liveIngest := true }

/-! ### Cursor-invariant lemmas -/

theorem cursorInv_reloadStep (mod : Nat) (st : playlistState × List Track)
    (e : DirEntry) (h : cursorInv st.1.tracks st.1.idx) :
    cursorInv (reloadStep mod st e).1.tracks (reloadStep mod st e).1.idx := by
  unfold cursorInv at h ⊢
  unfold reloadStep
  split
  · exact h
  · dsimp only
    split_ifs <;> omega

theorem cursorInv_foldl_reloadStep (mod : Nat) (es : List DirEntry) :
    ∀ st : playlistState × List Track, cursorInv st.1.tracks st.1.idx →
      cursorInv (es.foldl (reloadStep mod) st).1.tracks
        (es.foldl (reloadStep mod) st).1.idx := by
  induction es with
  | nil => intro st h; exact h
  | cons e rest ih =>
    intro st h
    exact ih _ (cursorInv_reloadStep mod st e h)

theorem cursorInv_reload (p : playlistState) (entries : Option (List DirEntry))
    (mod : Nat) (h : cursorInv p.tracks p.idx) :
    cursorInv (reload p entries mod).tracks (reload p entries mod).idx := by
  cases entries with
  | none => exact h
  | some es => exact cursorInv_foldl_reloadStep mod es (p, []) h

theorem cursorInv_ensure (p : playlistState) (statMod : Option Nat)
    (entries : Option (List DirEntry)) (h : cursorInv p.tracks p.idx) :
    cursorInv (ensure p statMod entries).tracks (ensure p statMod entries).idx := by
  cases statMod with
  | none => exact h
  | some mod =>
    show cursorInv
      (if p.tracks.length = 0 ∨ mod > p.lastModTime then reload p entries mod
        else p).tracks
      (if p.tracks.length = 0 ∨ mod > p.lastModTime then reload p entries mod
        else p).idx
    split
    · exact cursorInv_reload p entries mod h
    · exact h

theorem cursorInv_forceReload (p : playlistState) (statMod : Option Nat)
    (entries : Option (List DirEntry)) (h : cursorInv p.tracks p.idx) :
    cursorInv (forceReload p statMod entries).tracks
      (forceReload p statMod entries).idx := by
  cases statMod with
  | none => exact h
  | some mod => exact cursorInv_reload p entries mod h

theorem cursorInv_advance (p : playlistState) :
    cursorInv (advance p).1.tracks (advance p).1.idx := by
  unfold cursorInv advance
  split
  · next hlen => dsimp only; omega
  · next hlen =>
    dsimp only
    have hpos : (0 : Int) < (p.tracks.length : Int) := by
      have : p.tracks.length ≠ 0 := hlen
      omega
    have hn : (p.tracks.length : Int) ≠ 0 := by omega
    have h1 := Int.emod_nonneg (p.idx + 1) hn
    have h2 := Int.emod_lt_of_pos (p.idx + 1) hpos
    split_ifs <;> omega

theorem cursorInv_fetch (b : backendPlaylist) (resp : Option (List backendTrack))
    (now : Nat) (h : cursorInv b.tracks b.idx) :
    cursorInv (fetch b resp now).tracks (fetch b resp now).idx := by
  cases resp with
  | none => exact h
  | some ts =>
    unfold cursorInv at h ⊢
    unfold fetch
    dsimp only
    split_ifs <;> dsimp only <;> omega

theorem cursorInv_backendEnsure (b : backendPlaylist)
    (resp : Option (List backendTrack)) (now : Nat) (h : cursorInv b.tracks b.idx) :
    cursorInv (backendEnsure b resp now).tracks (backendEnsure b resp now).idx := by
  unfold backendEnsure
  split
  · exact cursorInv_fetch b resp now h
  · exact h

theorem cursorInv_backendAdvance (b : backendPlaylist) :
    cursorInv (backendAdvance b).1.tracks (backendAdvance b).1.idx := by
  unfold cursorInv backendAdvance
  split
  · next hlen => dsimp only; omega
  · next hlen =>
    dsimp only
    have hpos : (0 : Int) < (b.tracks.length : Int) := by
      have : b.tracks.length ≠ 0 := hlen
      omega
    have hn : (b.tracks.length : Int) ≠ 0 := by omega
    have h1 := Int.emod_nonneg (b.idx + 1) hn
    have h2 := Int.emod_lt_of_pos (b.idx + 1) hpos
    split_ifs <;> omega

theorem fetch_tracks_eq (b : backendPlaylist) (ts : List backendTrack) (now : Nat) :
    (fetch b (some ts) now).tracks = ts.map (fun t =>
      ({ id := t.id, file := pathJoin b.dir t.file, title := t.title,
         artist := t.artist, album := t.album,
         durationSec := t.durationSeconds } : Track)) := by
  unfold fetch
  dsimp only
  split_ifs <;> rfl

theorem fetch_clamps_to_zero (b : backendPlaylist) (ts : List backendTrack)
    (now : Nat) (hne : (fetch b (some ts) now).tracks ≠ [])
    (hout : b.idx ≥ ((fetch b (some ts) now).tracks.length : Int)) :
    (fetch b (some ts) now).idx = 0 := by
  rw [fetch_tracks_eq] at hne hout
  have hz : ((ts.map (fun t =>
      ({ id := t.id, file := pathJoin b.dir t.file, title := t.title,
         artist := t.artist, album := t.album,
         durationSec := t.durationSeconds } : Track))).length : Int) ≠ 0 := by
    intro h0
    apply hne
    apply List.length_eq_zero.mp
    exact_mod_cast h0
  unfold fetch
  dsimp only
  split_ifs <;> first | rfl | omega

/-! ### Claim C7 -/

/-- C7, counterexample.  The claim states that after every playlist
operation the cursor equals `-1` if and only if the snapshot is empty, and
that a reload producing a non-empty snapshot with an out-of-range cursor
clamps it to `0`.  Both parts fail on `playlistState.reload`: (1) reloading
a fresh playlist (cursor `-1`) from a directory with one mp3 file yields a
non-empty snapshot with the cursor still `-1`; (2) because the
snapshot-replace block sits inside the per-entry loop, a reload over
`[b.txt, a.mp3]` with cursor `7` first hits the empty intermediate list
(cursor set to `-1`) and ends with a non-empty snapshot, cursor `-1`, not
`0`. -/
theorem c7_counterexample :
    ((reload (newPlaylistState "d") (some [⟨"a.mp3", false⟩]) 1).tracks ≠ [] ∧
      (reload (newPlaylistState "d") (some [⟨"a.mp3", false⟩]) 1).idx = -1) ∧
    ((reload { dir := "d", tracks := [], idx := 7, lastModTime := 0 }
        (some [⟨"b.txt", false⟩, ⟨"a.mp3", false⟩]) 1).tracks.length = 1 ∧
      (7 : Int) ≥ 1 ∧
      (reload { dir := "d", tracks := [], idx := 7, lastModTime := 0 }
        (some [⟨"b.txt", false⟩, ⟨"a.mp3", false⟩]) 1).idx = -1) := by
  decide

/-- C7 (amended): after every playlist operation (filesystem
`reload`/`ensure`/`forceReload`/`advance` and backend
`fetch`/`ensure`/`advance`/`forceReload`) the cursor indexes a valid track
(`0 ≤ idx < length`) or equals `-1`, and an empty snapshot forces the
cursor to `-1` — but the cursor may also be `-1` on a non-empty snapshot
(the unstarted state, and after a filesystem reload whose intermediate
in-loop state was empty).  A backend `fetch` that produces a non-empty
snapshot while the cursor is at or beyond the new length clamps the cursor
to `0`. -/
theorem c7_cursor_invariant :
    (∀ (p : playlistState) (entries : Option (List DirEntry)) (mod : Nat),
      cursorInv p.tracks p.idx →
      cursorInv (reload p entries mod).tracks (reload p entries mod).idx) ∧
    (∀ (p : playlistState) (statMod : Option Nat)
      (entries : Option (List DirEntry)), cursorInv p.tracks p.idx →
      cursorInv (ensure p statMod entries).tracks (ensure p statMod entries).idx) ∧
    (∀ (p : playlistState) (statMod : Option Nat)
      (entries : Option (List DirEntry)), cursorInv p.tracks p.idx →
      cursorInv (forceReload p statMod entries).tracks
        (forceReload p statMod entries).idx) ∧
    (∀ p : playlistState, cursorInv (advance p).1.tracks (advance p).1.idx) ∧
    (∀ (b : backendPlaylist) (resp : Option (List backendTrack)) (now : Nat),
      cursorInv b.tracks b.idx →
      cursorInv (fetch b resp now).tracks (fetch b resp now).idx) ∧
    (∀ (b : backendPlaylist) (resp : Option (List backendTrack)) (now : Nat),
      cursorInv b.tracks b.idx →
      cursorInv (backendEnsure b resp now).tracks (backendEnsure b resp now).idx) ∧
    (∀ b : backendPlaylist,
      cursorInv (backendAdvance b).1.tracks (backendAdvance b).1.idx) ∧
    (∀ b : backendPlaylist, cursorInv b.tracks b.idx →
      cursorInv (backendForceReload b).tracks (backendForceReload b).idx) ∧
    (∀ (b : backendPlaylist) (ts : List backendTrack) (now : Nat),
      (fetch b (some ts) now).tracks ≠ [] →
      b.idx ≥ ((fetch b (some ts) now).tracks.length : Int) →
      (fetch b (some ts) now).idx = 0) :=
  ⟨cursorInv_reload, cursorInv_ensure, cursorInv_forceReload, cursorInv_advance,
   cursorInv_fetch, cursorInv_backendEnsure, cursorInv_backendAdvance,
   fun _ h => h, fetch_clamps_to_zero⟩

/-- C7 witness: the amended invariant applied to a concrete reload from a
fresh playlist state. -/
theorem c7_witness :
    cursorInv (newPlaylistState "d").tracks (newPlaylistState "d").idx ∧
    cursorInv (reload (newPlaylistState "d") (some [⟨"a.mp3", false⟩]) 1).tracks
      (reload (newPlaylistState "d") (some [⟨"a.mp3", false⟩]) 1).idx :=
  ⟨by unfold cursorInv; decide,
   c7_cursor_invariant.1 (newPlaylistState "d") (some [⟨"a.mp3", false⟩]) 1
     (by unfold cursorInv; decide)⟩

/-! ### Claim C9 -/

/-- C9: for a non-empty snapshot, `nextTrack` on the unstarted cursor
(`-1`) returns element `0` — and, being a read-locked pure query, it leaves
the cursor untouched (`nextTrack` is state-free in this embedding, exactly
as the Go method mutates nothing) — and `nextTrack`/`advance` at the last
index wrap to element `0` modulo the snapshot length.  Proved for both the
filesystem variant (`playlistState.nextTrack`/`advance`) and the backend
variant (`backendPlaylist.nextTrack`/`advance`). -/
theorem c9_next_unstarted_and_wrap :
    (∀ p : playlistState, p.tracks ≠ [] →
      (p.idx = -1 → nextTrack p = p.tracks.get? 0) ∧
      (p.idx = (p.tracks.length : Int) - 1 →
        nextTrack p = p.tracks.get? 0 ∧ (advance p).1.idx = 0 ∧
          (advance p).2 = p.tracks.get? 0)) ∧
    (∀ b : backendPlaylist, b.tracks ≠ [] →
      (b.idx = -1 → backendNextTrack b = b.tracks.get? 0) ∧
      (b.idx = (b.tracks.length : Int) - 1 →
        backendNextTrack b = b.tracks.get? 0 ∧ (backendAdvance b).1.idx = 0 ∧
          (backendAdvance b).2 = b.tracks.get? 0)) := by
  constructor
  · intro p hne
    have hlen0 : ¬ p.tracks.length = 0 := fun h => hne (List.length_eq_zero.mp h)
    constructor
    · intro hidx
      unfold nextTrack
      rw [if_neg hlen0, if_pos (by omega : p.idx < 0)]
    · intro hidx
      have hge : ¬ p.idx < 0 := by omega
      have hmod : (p.idx + 1) % (p.tracks.length : Int) = 0 := by
        have h1 : p.idx + 1 = (p.tracks.length : Int) := by omega
        rw [h1, Int.emod_self]
      refine ⟨?_, ?_, ?_⟩
      · unfold nextTrack
        rw [if_neg hlen0, if_neg hge, hmod]
        rfl
      · unfold advance
        rw [if_neg hlen0]
        dsimp only
        rw [if_neg hge, hmod]
      · unfold advance
        rw [if_neg hlen0]
        dsimp only
        rw [if_neg hge, hmod]
        rfl
  · intro b hne
    have hlen0 : ¬ b.tracks.length = 0 := fun h => hne (List.length_eq_zero.mp h)
    constructor
    · intro hidx
      unfold backendNextTrack
      rw [if_neg hlen0, if_pos (by omega : b.idx < 0)]
    · intro hidx
      have hge : ¬ b.idx < 0 := by omega
      have hmod : (b.idx + 1) % (b.tracks.length : Int) = 0 := by
        have h1 : b.idx + 1 = (b.tracks.length : Int) := by omega
        rw [h1, Int.emod_self]
      refine ⟨?_, ?_, ?_⟩
      · unfold backendNextTrack
        rw [if_neg hlen0, if_neg hge, hmod]
        rfl
      · unfold backendAdvance
        rw [if_neg hlen0]
        dsimp only
        rw [if_neg hge, hmod]
      · unfold backendAdvance
        rw [if_neg hlen0]
        dsimp only
        rw [if_neg hge, hmod]
        rfl

theorem heartbeatUpdate_dropped (now : Int) (ls : streamListener) :
    (heartbeatUpdate now ls).droppedInARow = ls.droppedInARow := by
  unfold heartbeatUpdate
  split
  · split_ifs <;> rfl
  · rfl

theorem heartbeatUpdate_byteSent (now : Int) (ls : streamListener) :
    (heartbeatUpdate now ls).byteSent = ls.byteSent := by
  unfold heartbeatUpdate
  split
  · split_ifs <;> rfl
  · rfl

theorem distributeStep_dropped (now : Int) (chunkLen : Nat) (full : Bool)
    (ls : streamListener) :
    (distributeStep now chunkLen full ls).1.droppedInARow =
      if full then ls.droppedInARow + 1 else 0 := by
  unfold distributeStep
  dsimp only
  rw [heartbeatUpdate_dropped]
  split_ifs <;> rfl

theorem distributeStep_evicted (now : Int) (chunkLen : Nat) (full : Bool)
    (ls : streamListener) :
    (distributeStep now chunkLen full ls).2 =
      (full && decide (ls.droppedInARow + 1 > 50)) := by
  unfold distributeStep
  dsimp only
  split_ifs <;> simp_all

theorem distributeStep_byteSent (now : Int) (chunkLen : Nat) (full : Bool)
    (ls : streamListener) :
    (distributeStep now chunkLen full ls).1.byteSent =
      ls.byteSent + (chunkLen : Int) := by
  unfold distributeStep
  dsimp only
  rw [heartbeatUpdate_byteSent]
  split_ifs <;> rfl

theorem runListener_evicted_eq (now : Int) (inputs : List (Nat × Bool)) :
    ∀ ls : streamListener,
      (runListener now inputs ls).2 =
        evictedFrom ls.droppedInARow (inputs.map Prod.snd) := by
  induction inputs with
  | nil => intro ls; rfl
  | cons p rest ih =>
    intro ls
    obtain ⟨len, full⟩ := p
    have hstep : runListener now ((len, full) :: rest) ls =
        (if (distributeStep now len full ls).2 then
          ((distributeStep now len full ls).1, true)
        else runListener now rest (distributeStep now len full ls).1) := rfl
    rw [hstep]
    cases full with
    | false =>
      have hev : (distributeStep now len false ls).2 = false := by
        rw [distributeStep_evicted]; simp
      have hd : (distributeStep now len false ls).1.droppedInARow = 0 := by
        rw [distributeStep_dropped]; simp
      rw [hev]
      simp only [Bool.false_eq_true, if_false, ih, hd, List.map_cons, evictedFrom]
    | true =>
      by_cases h50 : ls.droppedInARow + 1 > 50
      · have hev : (distributeStep now len true ls).2 = true := by
          rw [distributeStep_evicted]; simp [h50]
        rw [hev]
        simp [List.map_cons, evictedFrom, h50]
      · have hev : (distributeStep now len true ls).2 = false := by
          rw [distributeStep_evicted]; simp [h50]
        have hd : (distributeStep now len true ls).1.droppedInARow =
            ls.droppedInARow + 1 := by
          rw [distributeStep_dropped]; simp
        rw [hev]
        simp only [Bool.false_eq_true, if_false, ih, hd, List.map_cons, evictedFrom]
        simp [h50]

theorem evictedFrom_mono (tr : List Bool) :
    ∀ d d' : Nat, d ≤ d' → evictedFrom d tr = true → evictedFrom d' tr = true := by
  induction tr with
  | nil => intro d d' _ h; exact h
  | cons b rest ih =>
    intro d d' hdd h
    cases b with
    | false => exact h
    | true =>
      unfold evictedFrom at h ⊢
      simp only [if_true] at h ⊢
      by_cases h1 : d' + 1 > 50
      · rw [if_pos h1]
      · have h0 : ¬ d + 1 > 50 := by omega
        rw [if_neg h1]
        rw [if_neg h0] at h
        exact ih (d + 1) (d' + 1) (by omega) h

theorem evictedFrom_replicate (l₂ : List Bool) :
    ∀ (k d : Nat), d + (k + 1) > 50 →
      evictedFrom d (List.replicate (k + 1) true ++ l₂) = true := by
  intro k
  induction k with
  | zero =>
    intro d h
    show evictedFrom d (true :: l₂) = true
    unfold evictedFrom
    rw [if_pos rfl, if_pos (by omega : d + 1 > 50)]
  | succ k ih =>
    intro d h
    show evictedFrom d (true :: (List.replicate (k + 1) true ++ l₂)) = true
    unfold evictedFrom
    rw [if_pos rfl]
    by_cases h1 : d + 1 > 50
    · rw [if_pos h1]
    · rw [if_neg h1]
      exact ih (d + 1) (by omega)

theorem evictedFrom_append_left (tr : List Bool) :
    ∀ l₁ : List Bool, evictedFrom 0 tr = true →
      evictedFrom 0 (l₁ ++ tr) = true := by
  intro l₁
  induction l₁ with
  | nil => intro h; exact h
  | cons a rest ih =>
    intro h
    show evictedFrom 0 (a :: (rest ++ tr)) = true
    unfold evictedFrom
    cases a with
    | false => rw [if_neg (by simp)]; exact ih h
    | true =>
      rw [if_pos rfl, if_neg (by omega : ¬ (0 : Nat) + 1 > 50)]
      exact evictedFrom_mono (rest ++ tr) 0 1 (by omega) (ih h)

theorem evictedFrom_forward (tr : List Bool) :
    ∀ d : Nat, evictedFrom d tr = true →
      (∃ k l₂, tr = List.replicate k true ++ l₂ ∧ d + k ≥ 51) ∨
      (∃ l₁ l₂, tr = l₁ ++ List.replicate 51 true ++ l₂) := by
  induction tr with
  | nil => intro d h; exact absurd h (by simp [evictedFrom])
  | cons b rest ih =>
    intro d h
    cases b with
    | false =>
      have h0 : evictedFrom 0 rest = true := h
      rcases ih 0 h0 with ⟨k, l₂, hst, hk⟩ | ⟨l₁, l₂, hst⟩
      · refine Or.inr ⟨[false], List.replicate (k - 51) true ++ l₂, ?_⟩
        have hk51 : k = 51 + (k - 51) := by omega
        rw [hst, hk51, List.replicate_add]
        simp
      · exact Or.inr ⟨false :: l₁, l₂, by rw [hst]; simp⟩
    | true =>
      unfold evictedFrom at h
      rw [if_pos rfl] at h
      by_cases h1 : d + 1 > 50
      · refine Or.inl ⟨1, rest, by simp, by omega⟩
      · rw [if_neg h1] at h
        rcases ih (d + 1) h with ⟨k, l₂, hst, hk⟩ | ⟨l₁, l₂, hst⟩
        · refine Or.inl ⟨k + 1, l₂, ?_, by omega⟩
          rw [List.replicate_succ, hst]
          simp
        · exact Or.inr ⟨true :: l₁, l₂, by rw [hst]; simp⟩

theorem evictedFrom_true_iff (tr : List Bool) :
    evictedFrom 0 tr = true ↔
      ∃ l₁ l₂, tr = l₁ ++ List.replicate 51 true ++ l₂ := by
  constructor
  · intro h
    rcases evictedFrom_forward tr 0 h with ⟨k, l₂, hst, hk⟩ | hdone
    · refine ⟨[], List.replicate (k - 51) true ++ l₂, ?_⟩
      have hk51 : k = 51 + (k - 51) := by omega
      rw [hst, hk51, List.replicate_add]
      simp
    · exact hdone
  · rintro ⟨l₁, l₂, rfl⟩
    rw [List.append_assoc]
    refine evictedFrom_append_left _ l₁ ?_
    show evictedFrom 0 (List.replicate (50 + 1) true ++ l₂) = true
    exact evictedFrom_replicate l₂ 50 0 (by omega)

/-- C9 witness: the unstarted-cursor and wrap-around behaviour evaluated on
concrete one-track playlists. -/
theorem c9_witness :
    ((samplePlaylist (-1)).tracks ≠ [] ∧
      nextTrack (samplePlaylist (-1)) = (samplePlaylist (-1)).tracks.get? 0) ∧
    ((samplePlaylist 0).tracks ≠ [] ∧
      (advance (samplePlaylist 0)).1.idx = 0) := by
  have h := c9_next_unstarted_and_wrap
  refine ⟨⟨by decide, ?_⟩, ⟨by decide, ?_⟩⟩
  · exact (h.1 _ (by decide)).1 (by decide)
  · exact ((h.1 _ (by decide)).2 (by decide)).2.1

/-! ### Claim C1 -/

/-- C1: whenever `liveActive` is true, an AutoDJ-produced chunk delivered
through the producer callback installed in `NewStudio` is dropped at the
callback boundary: the studio state (in particular the Feed Queue) is left
completely unchanged, so nothing is enqueued and nothing is buffered for
later; this also holds across any whole sequence of AutoDJ chunks produced
while the flag stays up. -/
theorem c1_autodj_suppressed_while_live :
    (∀ (cap : Nat) (s : StudioFeed) (b : List Nat), s.liveActive = true →
      autoDJCallback cap s b = s) ∧
    (∀ (cap : Nat) (s : StudioFeed) (chunks : List (List Nat)),
      s.liveActive = true → chunks.foldl (autoDJCallback cap) s = s) := by
  have h1 : ∀ (cap : Nat) (s : StudioFeed) (b : List Nat), s.liveActive = true →
      autoDJCallback cap s b = s := by
    intro cap s b h
    unfold autoDJCallback
    rw [if_pos h]
  refine ⟨h1, ?_⟩
  intro cap s chunks h
  induction chunks with
  | nil => rfl
  | cons c cs ih =>
    show cs.foldl (autoDJCallback cap) (autoDJCallback cap s c) = s
    rw [h1 cap s c h]
    exact ih

/-- C1 witness: a concrete live studio state swallows a concrete AutoDJ
chunk without touching the feed. -/
theorem c1_witness :
    (⟨true, []⟩ : StudioFeed).liveActive = true ∧
      autoDJCallback feedCapacity ⟨true, []⟩ [1, 2] = ⟨true, []⟩ :=
  ⟨rfl, c1_autodj_suppressed_while_live.1 feedCapacity ⟨true, []⟩ [1, 2] rfl⟩

/-! ### Claim C4 -/

/-- C4: a listener is evicted by the distributor exactly when its
`droppedInARow` counter, which failed sends increment and successful sends
reset, passes 50: at the moment of eviction the counter strictly exceeds 50
(so the send that triggered it was the 51st consecutive failure), and a
listener starting from a zero counter is evicted during a chunk sequence if
and only if some 51 consecutive sends to it all found the channel full. -/
theorem c4_eviction_means_51_consecutive_drops :
    (∀ (now : Int) (chunkLen : Nat) (full : Bool) (ls : streamListener),
      (distributeStep now chunkLen full ls).2 = true →
      full = true ∧ (distributeStep now chunkLen full ls).1.droppedInARow > 50) ∧
    (∀ (now : Int) (inputs : List (Nat × Bool)) (ls : streamListener),
      ls.droppedInARow = 0 →
      ((runListener now inputs ls).2 = true ↔
        ∃ l₁ l₂, inputs.map Prod.snd = l₁ ++ List.replicate 51 true ++ l₂)) := by
  constructor
  · intro now len full ls hev
    rw [distributeStep_evicted] at hev
    simp only [Bool.and_eq_true, decide_eq_true_eq] at hev
    refine ⟨hev.1, ?_⟩
    rw [distributeStep_dropped, if_pos hev.1]
    omega
  · intro now inputs ls h0
    rw [runListener_evicted_eq, h0]
    exact evictedFrom_true_iff (inputs.map Prod.snd)

/-- C4 witness: the characterization applied to a fresh listener facing 51
consecutive full-channel sends, and one concrete eviction step. -/
theorem c4_witness :
    ((distributeStep 0 1 true ⟨50, 0, none⟩).2 = true ∧
      (true = true ∧
        (distributeStep 0 1 true ⟨50, 0, none⟩).1.droppedInARow > 50)) ∧
    ((⟨0, 0, none⟩ : streamListener).droppedInARow = 0 ∧
      ((runListener 0 (List.replicate 51 (1, true)) ⟨0, 0, none⟩).2 = true ↔
        ∃ l₁ l₂, (List.replicate 51 (1, true)).map Prod.snd =
          l₁ ++ List.replicate 51 true ++ l₂)) :=
  ⟨⟨by decide,
    c4_eviction_means_51_consecutive_drops.1 0 1 true ⟨50, 0, none⟩ (by decide)⟩,
   ⟨rfl, c4_eviction_means_51_consecutive_drops.2 0
     (List.replicate 51 (1, true)) ⟨0, 0, none⟩ rfl⟩⟩

/-! ### Claim C5 -/

/-- C5, counterexample.  The claim states `bytesSent` is incremented only on
a successful non-blocking send and left unchanged on a full-channel send and
for an evicted listener.  In `distribute` (part_004) the
`ls.l.ByteSent.Add(int64(len(data)))` call sits after the `select`,
unguarded, so it also runs on the failed-send path: a listener with a full
channel and counter 0 (send fails, no eviction) still has `byteSent` go from
0 to 100, and so does the listener being evicted (counter 50 → 51). -/
theorem c5_counterexample :
    ((distributeStep 0 100 true ⟨0, 0, none⟩).2 = false ∧
      (distributeStep 0 100 true ⟨0, 0, none⟩).1.byteSent = 100 ∧
      (100 : Int) ≠ 0) ∧
    ((distributeStep 0 100 true ⟨50, 0, none⟩).2 = true ∧
      (distributeStep 0 100 true ⟨50, 0, none⟩).1.byteSent = 100) := by
  decide

/-- C5 (amended): in the distributor loop of part_004, `bytesSent` is
incremented by the chunk length for every registered listener on every
chunk, regardless of whether the non-blocking send succeeded and including
the iteration that evicts the listener. -/
theorem c5_bytesent_always_incremented (now : Int) (chunkLen : Nat)
    (full : Bool) (ls : streamListener) :
    (distributeStep now chunkLen full ls).1.byteSent =
      ls.byteSent + (chunkLen : Int) :=
  distributeStep_byteSent now chunkLen full ls

/-! ### Claim C8 -/

/-- C8, counterexample.  The claim states the pacing sleep equals
`expected - elapsed` whenever positive and that no single sleep exceeds
700 ms.  Neither cited variant satisfies both: with `sent = 16000` bytes at
`bytesPerSec = 16000` and zero elapsed time, `expected - elapsed` is one
second, so the `autodj.go` variant sleeps 1 s > 700 ms (it has no upper
bound), while the part_002 variant — whose guard is `sleep > 0 && sleep <
700*time.Microsecond` — performs no sleep at all even though the difference
is positive. -/
theorem c8_counterexample :
    (chunkPacingAutodj 16000 16000 0 = 1000000000 ∧
      (1000000000 : Int) > 700000000) ∧
    (chunkPacingPart002 16000 16000 0 = 0 ∧
      expectedNs 16000 16000 - 0 > 0 ∧
      chunkPacingPart002 16000 16000 0 ≠ expectedNs 16000 16000 - 0) := by
  decide

/-- C8 (amended): after each chunk, the `autodj.go` variant sleeps exactly
`expected - elapsed` whenever that difference is positive and does not
sleep otherwise — with no upper bound on a single sleep — while the
part_002 variant sleeps `expected - elapsed` only when that difference is
strictly between 0 and 700 microseconds and otherwise does not sleep, so
each of its sleeps is below 700 µs. -/
theorem c8_pacing_behavior :
    (∀ expected elapsed : Int,
      (elapsed < expected →
        pacingSleepAutodj expected elapsed = expected - elapsed) ∧
      (¬ elapsed < expected → pacingSleepAutodj expected elapsed = 0)) ∧
    (∀ expected elapsed : Int,
      0 ≤ pacingSleepPart002 expected elapsed ∧
      pacingSleepPart002 expected elapsed < 700000 ∧
      (0 < expected - elapsed ∧ expected - elapsed < 700000 →
        pacingSleepPart002 expected elapsed = expected - elapsed)) := by
  constructor
  · intro expected elapsed
    unfold pacingSleepAutodj
    constructor
    · intro h; rw [if_pos (by omega : expected > elapsed)]
    · intro h; rw [if_neg (by omega : ¬ expected > elapsed)]
  · intro expected elapsed
    unfold pacingSleepPart002
    dsimp only
    split_ifs <;> refine ⟨by omega, by omega, ?_⟩ <;> intro h <;> omega

/-- C8 witness: the amended pacing facts applied at concrete durations. -/
theorem c8_witness :
    ((0 : Int) < 5 ∧ pacingSleepAutodj 5 0 = 5 - 0) ∧
    (0 < (5 : Int) - 0 ∧ (5 : Int) - 0 < 700000 ∧
      pacingSleepPart002 5 0 = 5 - 0) :=
  ⟨⟨by decide, (c8_pacing_behavior.1 5 0).1 (by decide)⟩,
   ⟨by decide, by decide, (c8_pacing_behavior.2 5 0).2.2 (by decide)⟩⟩

/-! ### Claims C2 and C10: geo enrichment -/

theorem hashAndNull_some (sha256 : List Nat → List Nat) (r : Resolver)
    (l : Listener) (ip : String) (hip : l.remoteIP = some ip) :
    hashAndNull sha256 r l =
      { l with ipHash := hexEncode (sha256 (r.salt ++ strBytes ip)),
               remoteIP := none } := by
  unfold hashAndNull
  rw [hip]

theorem hashAndNull_none (sha256 : List Nat → List Nat) (r : Resolver)
    (l : Listener) (hip : l.remoteIP = none) :
    hashAndNull sha256 r l = l := by
  unfold hashAndNull
  rw [hip]

theorem applyCity_remoteIP (city : CityRecord) (l : Listener) :
    (applyCity city l).remoteIP = l.remoteIP := by
  unfold applyCity
  dsimp only
  split_ifs <;> rfl

theorem applyCity_enriched (city : CityRecord) (l : Listener) :
    (applyCity city l).enriched = l.enriched := by
  unfold applyCity
  dsimp only
  split_ifs <;> rfl

theorem hexDigit_lower (n : Nat) (hn : n ≤ 15) :
    hexDigit n ∈ "0123456789abcdef".toList := by
  interval_cases n <;> decide

/-- C2: for every listener on which `Enrich` completed with the `Enriched`
flag set (starting, as every listener does, with the flag clear), the raw
`RemoteIP` is nil afterwards and `IPHash` is the hex encoding of
`sha256(salt ++ originalIP.String())`; and `hexEncode` produces only
lowercase hex digits on byte input. -/
theorem c2_enriched_implies_hashed_and_nulled :
    (∀ (sha256 : List Nat → List Nat)
      (cityLookup : String → Option CityRecord) (r : Resolver) (l : Listener),
      l.enriched = false →
      (Enrich sha256 cityLookup r l).enriched = true →
      ∃ ip, l.remoteIP = some ip ∧
        (Enrich sha256 cityLookup r l).remoteIP = none ∧
        (Enrich sha256 cityLookup r l).ipHash =
          hexEncode (sha256 (r.salt ++ strBytes ip))) ∧
    (∀ bs : List Nat, (∀ b ∈ bs, b < 256) →
      ∀ c ∈ hexEncode bs, c ∈ "0123456789abcdef".toList) := by
  constructor
  · intro sha cl r l h0 h1
    by_cases hc : (!r.ok || l.remoteIP.isNone) = true
    · exfalso
      unfold Enrich at h1
      rw [if_pos hc] at h1
      unfold hashOnly at h1
      cases hip : l.remoteIP with
      | none =>
        rw [hashAndNull_none sha r l hip] at h1
        rw [h0] at h1
        exact Bool.noConfusion h1
      | some ip =>
        rw [hashAndNull_some sha r l ip hip] at h1
        have h2 : l.enriched = true := h1
        rw [h0] at h2
        exact Bool.noConfusion h2
    · cases hip : l.remoteIP with
      | none =>
        exfalso
        apply hc
        rw [hip]
        simp
      | some ip =>
        have hE1 : Enrich sha cl r l = (match cl ip with
            | none => hashOnly sha r l
            | some city =>
              { hashAndNull sha r (applyCity city l) with enriched := true }) := by
          unfold Enrich
          rw [if_neg hc, hip]
        cases hcl : cl ip with
        | none =>
          exfalso
          rw [hcl] at hE1
          rw [hE1] at h1
          unfold hashOnly at h1
          rw [hashAndNull_some sha r l ip hip] at h1
          have h2 : l.enriched = true := h1
          rw [h0] at h2
          exact Bool.noConfusion h2
        | some city =>
          have hA : (applyCity city l).remoteIP = some ip := by
            rw [applyCity_remoteIP, hip]
          rw [hcl] at hE1
          have hE2 : Enrich sha cl r l =
              { hashAndNull sha r (applyCity city l) with enriched := true } := hE1
          rw [hashAndNull_some sha r (applyCity city l) ip hA] at hE2
          exact ⟨ip, rfl, by rw [hE2], by rw [hE2]⟩
  · intro bs
    induction bs with
    | nil => intro _ c hc; cases hc
    | cons b rest ih =>
      intro h c hc
      have hb : b < 256 := h b (by simp)
      rw [show hexEncode (b :: rest) =
        hexDigit (b / 16) :: hexDigit (b % 16) :: hexEncode rest from rfl] at hc
      rcases List.mem_cons.mp hc with rfl | hc2
      · exact hexDigit_lower _ (by omega)
      rcases List.mem_cons.mp hc2 with rfl | hc3
      · exact hexDigit_lower _ (by omega)
      · exact ih (fun x hx => h x (by simp [hx])) c hc3

/-- C2 witness: a concrete enrichment run through the full success path. -/
theorem c2_witness :
    (⟨"i", "s", 0, none, some "1.2.3.4", [], "", "", "", 0, 0, "u", "other",
      0, none, false⟩ : Listener).enriched = false ∧
    (Enrich (fun _ => [0]) (fun _ => some {})
      ⟨true, [1]⟩
      ⟨"i", "s", 0, none, some "1.2.3.4", [], "", "", "", 0, 0, "u", "other",
        0, none, false⟩).enriched = true ∧
    (∃ ip, (⟨"i", "s", 0, none, some "1.2.3.4", [], "", "", "", 0, 0, "u",
        "other", 0, none, false⟩ : Listener).remoteIP = some ip ∧
      (Enrich (fun _ => [0]) (fun _ => some {}) ⟨true, [1]⟩
        ⟨"i", "s", 0, none, some "1.2.3.4", [], "", "", "", 0, 0, "u", "other",
          0, none, false⟩).remoteIP = none ∧
      (Enrich (fun _ => [0]) (fun _ => some {}) ⟨true, [1]⟩
        ⟨"i", "s", 0, none, some "1.2.3.4", [], "", "", "", 0, 0, "u", "other",
          0, none, false⟩).ipHash =
        hexEncode ((fun _ => [0]) (Resolver.salt ⟨true, [1]⟩ ++
          strBytes "1.2.3.4"))) :=
  ⟨rfl, by decide,
   c2_enriched_implies_hashed_and_nulled.1 (fun _ => [0]) (fun _ => some {})
     ⟨true, [1]⟩ _ rfl (by decide)⟩

/-- C10: when the X-Forwarded-For header yields no parseable IP and the
peer address cannot be parsed either, `ExtractClientIp` returns nil; the
listener is then created with a nil `RemoteIP`, and running `Enrich` on it
leaves the record completely unchanged — `IPHash` stays empty, `RemoteIP`
stays nil, `Enriched` stays false — so the analytics session DTO built from
it carries an empty `ip_hash`. -/
theorem c10_unparseable_ip_stays_unhashed :
    ∀ (parseIP splitHostPort : String → Option String) (xff remoteAddr : String)
      (sha256 : List Nat → List Nat)
      (cityLookup : String → Option CityRecord) (r : Resolver)
      (id studioId ua : String) (now : Int),
      (∀ part ∈ xff.splitOn ",", parseIP part.trim = none) →
      (∀ host, splitHostPort remoteAddr = some host → parseIP host = none) →
      ExtractClientIp parseIP splitHostPort xff remoteAddr = none ∧
      Enrich sha256 cityLookup r (mkListener id studioId
          (ExtractClientIp parseIP splitHostPort xff remoteAddr) ua now) =
        mkListener id studioId none ua now ∧
      (mkListener id studioId none ua now).ipHash = [] ∧
      (mkListener id studioId none ua now).remoteIP = none ∧
      (mkListener id studioId none ua now).enriched = false ∧
      (sessionOf (mkListener id studioId none ua now)).ipHash = [] := by
  intro parseIP shp xff remoteAddr sha cl r id studioId ua now hxff hpeer
  have hfirst : ∀ parts : List String,
      (∀ p ∈ parts, parseIP p.trim = none) →
      firstParsedIp parseIP parts = none := by
    intro parts
    induction parts with
    | nil => intro _; rfl
    | cons p rest ih =>
      intro hp
      unfold firstParsedIp
      rw [hp p (by simp)]
      exact ih (fun q hq => hp q (by simp [hq]))
  have hext : ExtractClientIp parseIP shp xff remoteAddr = none := by
    unfold ExtractClientIp
    dsimp only
    have hfx : (if xff ≠ "" then firstParsedIp parseIP (xff.splitOn ",")
        else none) = none := by
      split_ifs with h
      · exact hfirst _ hxff
      · rfl
    rw [hfx]
    cases hsp : shp remoteAddr with
    | none => rfl
    | some host => exact hpeer host hsp
  refine ⟨hext, ?_, rfl, rfl, rfl, rfl⟩
  rw [hext]
  unfold Enrich
  have hcondT : (!r.ok ||
      (mkListener id studioId none ua now).remoteIP.isNone) = true := by
    simp [mkListener]
  rw [if_pos hcondT]
  unfold hashOnly
  exact hashAndNull_none sha r _ rfl

/-- C10 witness: concrete parse failures give an unchanged listener with an
empty hash. -/
theorem c10_witness :
    (∀ part ∈ ("" : String).splitOn ",",
      (fun _ => (none : Option String)) part.trim = none) ∧
    (∀ host : String, (fun _ => (none : Option String)) "1.2.3.4:99" =
      some host → (fun _ => (none : Option String)) host = none) ∧
    (ExtractClientIp (fun _ => none) (fun _ => none) "" "1.2.3.4:99" = none ∧
      Enrich (fun _ => []) (fun _ => none) ⟨true, []⟩
        (mkListener "i" "s" (ExtractClientIp (fun _ => none) (fun _ => none)
          "" "1.2.3.4:99") "u" 0) = mkListener "i" "s" none "u" 0 ∧
      (mkListener "i" "s" none "u" 0).ipHash = [] ∧
      (mkListener "i" "s" none "u" 0).remoteIP = none ∧
      (mkListener "i" "s" none "u" 0).enriched = false ∧
      (sessionOf (mkListener "i" "s" none "u" 0)).ipHash = []) :=
  ⟨fun _ _ => rfl, fun _ h => Option.noConfusion h,
   c10_unparseable_ip_stays_unhashed (fun _ => none) (fun _ => none) ""
     "1.2.3.4:99" (fun _ => []) (fun _ => none) ⟨true, []⟩ "i" "s" "u" 0
     (fun _ _ => rfl) (fun _ h => Option.noConfusion h)⟩

/-! ### Claims C3 and C6: live ingest -/

theorem splitN2_sound (sep : Char) :
    ∀ (s a b : List Char), splitN2 s sep = some (a, b) →
      s = a ++ sep :: b ∧ sep ∉ a := by
  intro s
  induction s with
  | nil => intro a b h; exact absurd h (by simp [splitN2])
  | cons c rest ih =>
    intro a b h
    unfold splitN2 at h
    by_cases hc : c = sep
    · rw [if_pos hc] at h
      have h2 := Option.some.inj h
      have ha : ([] : List Char) = a := congrArg Prod.fst h2
      have hb : rest = b := congrArg Prod.snd h2
      subst ha
      subst hb
      exact ⟨by rw [hc]; rfl, by simp⟩
    · rw [if_neg hc] at h
      cases hrec : splitN2 rest sep with
      | none => rw [hrec] at h; exact absurd h (by simp)
      | some ab =>
        obtain ⟨a₀, b₀⟩ := ab
        rw [hrec] at h
        have h2 := Option.some.inj h
        have ha : c :: a₀ = a := congrArg Prod.fst h2
        have hb : b₀ = b := congrArg Prod.snd h2
        subst ha
        subst hb
        obtain ⟨hr1, hr2⟩ := ih a₀ b₀ hrec
        refine ⟨by rw [hr1]; rfl, ?_⟩
        intro hmem
        rcases List.mem_cons.mp hmem with h' | h'
        · exact hc h'.symm
        · exact hr2 h'

theorem splitN2_append (sep : Char) :
    ∀ (a b : List Char), sep ∉ a → splitN2 (a ++ sep :: b) sep = some (a, b) := by
  intro a
  induction a with
  | nil =>
    intro b _
    show splitN2 (sep :: b) sep = some ([], b)
    unfold splitN2
    rw [if_pos rfl]
  | cons c a' ih =>
    intro b hmem
    have hmem' : ¬ sep = c ∧ sep ∉ a' := by
      rw [List.mem_cons] at hmem
      exact not_or.mp hmem
    have hc : ¬ c = sep := fun h => hmem'.1 h.symm
    show splitN2 (c :: (a' ++ sep :: b)) sep = some (c :: a', b)
    unfold splitN2
    rw [if_neg hc, ih b hmem'.2]

/-- C3: a request to `HandleLiveIngest` that passes the method check and
authentication while the studio's `liveActive` flag is already set is
answered `409 Conflict`, with the studio state (live reader, metadata,
feed) untouched and no bytes published. -/
theorem c3_second_live_conflict :
    ∀ (pw user : List Char) (now : Int) (req : LiveRequest)
      (st : HandlerState) (reads : List (List Nat)),
      acceptedLiveMethod req.method = true →
      checkIcecastAuth pw user req.authHeader = true →
      st.liveActive = true →
      HandleLiveIngest pw user now req st reads =
        { status := 409, wwwAuthenticate := none, finalState := st,
          pushed := [] } := by
  intro pw user now req st reads hm ha hl
  unfold HandleLiveIngest
  rw [if_neg (by simp [hm]), if_neg (by simp [ha]), if_pos hl]

/-- C3 witness: a concrete authenticated `SOURCE` request against a live
studio gets 409 and changes nothing. -/
theorem c3_witness :
    acceptedLiveMethod sampleLiveRequest.method = true ∧
    checkIcecastAuth ("Test123".toList) ("source".toList)
      sampleLiveRequest.authHeader = true ∧
    sampleLiveState.liveActive = true ∧
    HandleLiveIngest ("Test123".toList) ("source".toList) 0 sampleLiveRequest
        sampleLiveState [[7]] =
      { status := 409, wwwAuthenticate := none, finalState := sampleLiveState,
        pushed := [] } :=
  ⟨by decide, by decide, rfl,
   c3_second_live_conflict ("Test123".toList) ("source".toList) 0
     sampleLiveRequest sampleLiveState [[7]] (by decide) (by decide) rfl⟩

/-- C6: `checkIcecastAuth` accepts exactly the `Authorization` headers of
the form `<scheme> <payload>` whose scheme case-folds to `Basic` and whose
payload base64-decodes to `user:pass` with the expected username (itself
colon-free) and the configured source password; and on any authentication
failure with an accepted method, `HandleLiveIngest` answers 401 with
`WWW-Authenticate: Basic realm="source"`, leaving the state untouched and
publishing nothing. -/
theorem c6_basic_auth_iff_and_401 :
    (∀ pw user auth : List Char,
      checkIcecastAuth pw user auth = true ↔
        ∃ scheme payload,
          auth = scheme ++ ' ' :: payload ∧ ' ' ∉ scheme ∧
          equalFold scheme ("Basic".toList) = true ∧
          b64Decode payload = some (user ++ ':' :: pw) ∧ ':' ∉ user) ∧
    (∀ (pw user : List Char) (now : Int) (req : LiveRequest)
      (st : HandlerState) (reads : List (List Nat)),
      acceptedLiveMethod req.method = true →
      checkIcecastAuth pw user req.authHeader = false →
      HandleLiveIngest pw user now req st reads =
        { status := 401, wwwAuthenticate := some basicRealmSource,
          finalState := st, pushed := [] }) := by
  constructor
  · intro pw user auth
    constructor
    · intro h
      unfold checkIcecastAuth at h
      by_cases he : auth.isEmpty = true
      · rw [if_pos he] at h; exact absurd h (by simp)
      · rw [if_neg he] at h
        cases hsp : splitN2 auth ' ' with
        | none => rw [hsp] at h; exact absurd h (by simp)
        | some sp =>
          obtain ⟨scheme, payload⟩ := sp
          rw [hsp] at h
          have h1 : checkSchemePayload pw user scheme payload = true := h
          unfold checkSchemePayload at h1
          by_cases hef : equalFold scheme ("Basic".toList) = true
          · rw [if_neg (by rw [hef]; simp)] at h1
            cases hb : b64Decode payload with
            | none => rw [hb] at h1; exact absurd h1 (by simp)
            | some decoded =>
              rw [hb] at h1
              have h2 : checkCreds pw user decoded = true := h1
              unfold checkCreds at h2
              cases hsp2 : splitN2 decoded ':' with
              | none => rw [hsp2] at h2; exact absurd h2 (by simp)
              | some up =>
                obtain ⟨u, p⟩ := up
                rw [hsp2] at h2
                have h3 : (if u ≠ user then false
                    else if p ≠ pw then false else true) = true := h2
                by_cases hu : u = user
                · by_cases hp : p = pw
                  · obtain ⟨hauth, hschm⟩ :=
                      splitN2_sound ' ' auth scheme payload hsp
                    obtain ⟨hdec, hu2⟩ := splitN2_sound ':' decoded u p hsp2
                    refine ⟨scheme, payload, hauth, hschm, hef, ?_, ?_⟩
                    · rw [hb, hdec, hu, hp]
                    · rw [← hu]; exact hu2
                  · exfalso
                    rw [if_neg (by simp [hu]), if_pos hp] at h3
                    exact absurd h3 (by simp)
                · exfalso
                  rw [if_pos hu] at h3
                  exact absurd h3 (by simp)
          · exfalso
            have hef' : equalFold scheme ("Basic".toList) = false := by
              revert hef
              cases equalFold scheme ("Basic".toList) <;> simp
            rw [if_pos (by rw [hef']; simp)] at h1
            exact absurd h1 (by simp)
    · rintro ⟨scheme, payload, rfl, hschm, hef, hdec, hu⟩
      unfold checkIcecastAuth
      have hne : (scheme ++ ' ' :: payload).isEmpty = false := by
        cases scheme <;> rfl
      rw [if_neg (by simp [hne])]
      rw [splitN2_append ' ' scheme payload hschm]
      show checkSchemePayload pw user scheme payload = true
      unfold checkSchemePayload
      rw [if_neg (by rw [hef]; simp), hdec]
      show checkCreds pw user (user ++ ':' :: pw) = true
      unfold checkCreds
      rw [splitN2_append ':' user pw hu]
      show (if user ≠ user then false else if pw ≠ pw then false else true) = true
      rw [if_neg (by simp), if_neg (by simp)]
  · intro pw user now req st reads hm ha
    unfold HandleLiveIngest
    rw [if_neg (by simp [hm]), if_pos (by simp [ha])]

/-- C6 witness: the characterization at the concrete valid header, and a
concrete missing-`Authorization` request answered 401 with the challenge. -/
theorem c6_witness :
    (checkIcecastAuth ("Test123".toList) ("source".toList)
        ("Basic c291cmNlOlRlc3QxMjM=".toList) = true ↔
      ∃ scheme payload,
        "Basic c291cmNlOlRlc3QxMjM=".toList = scheme ++ ' ' :: payload ∧
        ' ' ∉ scheme ∧ equalFold scheme ("Basic".toList) = true ∧
        b64Decode payload = some ("source".toList ++ ':' :: "Test123".toList) ∧
        ':' ∉ "source".toList) ∧
    acceptedLiveMethod "PUT" = true ∧
    checkIcecastAuth ("Test123".toList) ("source".toList) [] = false ∧
    HandleLiveIngest ("Test123".toList) ("source".toList) 0 { method := "PUT" }
        { liveActive := false } [] =
      { status := 401, wwwAuthenticate := some basicRealmSource,
        finalState := { liveActive := false }, pushed := [] } :=
  ⟨c6_basic_auth_iff_and_401.1 ("Test123".toList) ("source".toList)
     ("Basic c291cmNlOlRlc3QxMjM=".toList),
   by decide, by decide,
   c6_basic_auth_iff_and_401.2 ("Test123".toList) ("source".toList) 0
     { method := "PUT" } { liveActive := false } [] (by decide) (by decide)⟩

end StudioSpec
